import Mathlib

/-!
Shallow embedding of `src/quiz_app.py` (a Streamlit trivia quiz client).

The Python program keeps its session state in `st.session_state`
(fields `quiz_started`, `questions`, `score`, `current_question`,
`user_answers`); the handlers for the Start Quiz, Submit Answer and
Play Again buttons mutate that state.  Here the state is a record and
each handler is a pure state-transition function translated line by
line from the source.  External library functions are modelled
explicitly: `random.shuffle` as a Fisher-Yates pass driven by an
explicit stream of random draws, `html.unescape` as an arbitrary
function parameter, and the HTTP layer (`requests`) as an inductive
describing the possible outcomes of the single GET request.
-/

namespace QuizApp

/-- A question as returned by the trivia API (`question.text`,
`correctAnswer`, `incorrectAnswers`, optional `image`), the shape the
code reads in `display_question`. -/
structure Question where
  text : String
  correctAnswer : String
  incorrectAnswers : List String
  image : Option String := none
deriving DecidableEq, Repr

instance : Inhabited Question := ⟨⟨"", "", [], none⟩⟩

/-- One entry of `st.session_state.user_answers` as stored by the
Submit Answer handler (lines 168-171): a dict with keys
`user_choice` and `correct_answer`. -/
structure AnswerRecord where
  user_choice : String
  correct_answer : String
deriving DecidableEq, Repr

/-- Correctness is not stored; the code derives it where needed by
comparing the two stored strings (lines 174 and 208). -/
def AnswerRecord.isCorrect (r : AnswerRecord) : Bool :=
  r.user_choice == r.correct_answer

/-!
## `random.shuffle`

Python's `random.shuffle(x)` runs
`for i in reversed(range(1, len(x))): j = randbelow(i+1); swap x[i], x[j]`.
We model the stream of random draws as a list `js : List Nat`; the
draw for index `i` is `js.headD 0 % (i+1)`, one entry consumed per
iteration.  `fyAux n l js` performs the loop on the first `n`
elements of `l` (callers pass `n = l.length`).
-/

def fyAux : Nat → List String → List Nat → List String
  | 0, l, _ => l
  | 1, l, _ => l
  | n+2, l, js =>
    if js.headD 0 % (n+2) = n+1 then
      fyAux (n+1) (l.take (n+1)) js.tail ++ [l.getD (n+1) ""]
    else
      fyAux (n+1) ((l.take (n+1)).set (js.headD 0 % (n+2)) (l.getD (n+1) "")) js.tail
        ++ [(l.take (n+1)).getD (js.headD 0 % (n+2)) ""]

/-- `random.shuffle` on a list, with `js` the stream of random draws. -/
def pyShuffle (l : List String) (js : List Nat) : List String :=
  fyAux l.length l js

/-- Lines 63-68 of `display_question`: build the option list by
concatenating `incorrectAnswers` with `[correctAnswer]`, shuffle it,
then decode every entry with `html.unescape` (passed in as the
parameter `unescape`).  This code runs on EVERY render of the
question; `js` is whatever the shared RNG produces at that render. -/
def displayOptions (unescape : String → String) (q : Question) (js : List Nat) :
    List String :=
  (pyShuffle (q.incorrectAnswers ++ [q.correctAnswer]) js).map unescape

/-- Line 72: the decoded correct answer returned by `display_question`. -/
def displayCorrect (unescape : String → String) (q : Question) : String :=
  unescape q.correctAnswer


/-!
## Session state

`st.session_state` after `initialize_session_state` has the five
fields below.  `user_answers` is a Python dict keyed by question
index; we model it as an association list with Python's dict-update
semantics (overwrite in place if the key exists, append otherwise).
-/

structure QuizState where
  quiz_started : Bool
  questions : List Question
  score : Nat
  current_question : Nat
  user_answers : List (Nat × AnswerRecord)
deriving DecidableEq, Repr

/-- Python dict assignment `d[k] = v`. -/
def dictInsert (k : Nat) (v : AnswerRecord) (d : List (Nat × AnswerRecord)) :
    List (Nat × AnswerRecord) :=
  if d.any (fun p => p.1 == k) then
    d.map (fun p => if p.1 == k then (k, v) else p)
  else
    d ++ [(k, v)]

/-- Python dict lookup `d.get(k)`. -/
def dictGet (k : Nat) (d : List (Nat × AnswerRecord)) : Option AnswerRecord :=
  (d.find? (fun p => p.1 == k)).map (fun p => p.2)

/-!
## `st.session_state` before initialization

Streamlit's session store may be missing any of the keys (on first
run, or after the Play Again handler deletes them all);
`initialize_session_state` (lines 74-87) fills in each missing key
with its default.
-/

structure RawSessionState where
  quiz_started : Option Bool
  questions : Option (List Question)
  score : Option Nat
  current_question : Option Nat
  user_answers : Option (List (Nat × AnswerRecord))
deriving Repr

/-- The store with every key deleted, as left by lines 218-219. -/
def blankSession : RawSessionState := ⟨none, none, none, none, none⟩

/-- Lines 74-87: set each field to its default if the key is absent. -/
def initialize_session_state (s : RawSessionState) : RawSessionState :=
  { quiz_started := some (s.quiz_started.getD false)
    questions := some (s.questions.getD [])
    score := some (s.score.getD 0)
    current_question := some (s.current_question.getD 0)
    user_answers := some (s.user_answers.getD []) }

/-- Read the initialized store as a `QuizState`. -/
def toQuizState (r : RawSessionState) : QuizState :=
  { quiz_started := r.quiz_started.getD false
    questions := r.questions.getD []
    score := r.score.getD 0
    current_question := r.current_question.getD 0
    user_answers := r.user_answers.getD [] }

/-- Play Again handler (lines 216-220): delete every session key,
then rerun — the next run's `initialize_session_state` rebuilds the
store from `blankSession`. -/
def playAgain (_s : RawSessionState) : RawSessionState :=
  initialize_session_state blankSession

/-!
## HTTP fetch

`fetch_quiz_questions` (lines 27-46) makes a single GET request.  We
model the request's outcome as an inductive: the call can return a
2xx response whose body parses to a question list, raise
`requests.exceptions.RequestException` (network error from
`requests.get`, or a 4xx/5xx status from `raise_for_status`), or
deliver a body that `response.json()` fails to parse (`ValueError`).
-/

inductive ApiResponse where
  | ok (qs : List Question)
  | requestException (msg : String)
  | badJson
deriving DecidableEq, Repr

/-- Lines 36-46: on success return the parsed list; on a
`RequestException` display one error message and return `[]`; on a
JSON decode failure display another error message and return `[]`.
The result pairs the returned list with the message shown via
`st.error` (`none` when no error is displayed). -/
def fetch_quiz_questions (r : ApiResponse) : List Question × Option String :=
  match r with
  | .ok qs => (qs, none)
  | .requestException m =>
      ([], some ("Error fetching questions from the API: " ++ m))
  | .badJson =>
      ([], some "Failed to decode the API response. The API might be temporarily down.")

/-- Modelled from the spec: the spec's `QuestionSource.fetch` contract
(section 4.1) with the `FetchError{Transport, Decode, Empty}`
taxonomy, which has no counterpart in the code.  Used only to compare
the code's fetch against the spec's distinguishable error kinds. -/
inductive FetchError where
  | Transport (msg : String)
  | Decode (msg : String)
  | Empty
deriving DecidableEq, Repr

/-- Modelled from the spec: transport failure maps to `Transport`,
unparseable body to `Decode`, success with zero questions to
`Empty`. -/
def fetchSpec (r : ApiResponse) : Except FetchError (List Question) :=
  match r with
  | .ok [] => .error .Empty
  | .ok qs => .ok qs
  | .requestException m => .error (.Transport m)
  | .badJson => .error (.Decode "Failed to decode the API response. The API might be temporarily down.")

/-!
## Button handlers
-/

/-- Start Quiz handler (lines 134-140): store the fetched list in
`questions`; if it is non-empty, set `quiz_started`, reset `score`,
`current_question` and `user_answers`.  If it is empty, nothing else
changes. -/
def startQuiz (s : QuizState) (fetched : List Question) : QuizState :=
  if fetched.isEmpty then { s with questions := fetched }
  else { s with questions := fetched, quiz_started := true, score := 0,
                current_question := 0, user_answers := [] }

/-- Submit Answer handler (lines 166-191).  `unescape` stands for
`html.unescape`; the choice compared on line 174 is the radio value
and the `correct_answer` returned by `display_question` (line 72) is
`unescape` of the current question's `correctAnswer`.  Returns the
stored record (the immediate feedback of lines 174-178 is derived
from it) together with the updated state. -/
def submitAnswer (unescape : String → String) (choice : String) (s : QuizState) :
    AnswerRecord × QuizState :=
  let q := s.questions.getD s.current_question default
  let ca := unescape q.correctAnswer
  let r : AnswerRecord := { user_choice := choice, correct_answer := ca }
  let answers := dictInsert s.current_question r s.user_answers
  let score := if choice == ca then s.score + 1 else s.score
  let cur := s.current_question + 1
  let started := if s.questions.length ≤ cur then false else s.quiz_started
  (r, { quiz_started := started, questions := s.questions, score := score,
        current_question := cur, user_answers := answers })

/-- Fold a sequence of Submit Answer clicks over the state. -/
def runSubmits (unescape : String → String) (choices : List String) (s : QuizState) :
    QuizState :=
  choices.foldl (fun st c => (submitAnswer unescape c st).2) s

/-- Line 195: the results block renders exactly when the quiz is not
started and `user_answers` is non-empty. -/
def isFinished (s : QuizState) : Bool :=
  !s.quiz_started && !s.user_answers.isEmpty

/-- Lines 195-198: the final-score header, `score / len(questions)`,
shown when the results block is active. -/
def resultsHeader (s : QuizState) : Option (Nat × Nat) :=
  if isFinished s then some (s.score, s.questions.length) else none

/-- One row of the review loop. -/
structure ReviewEntry where
  questionText : String
  user_choice : String
  correct_answer : String
  isCorrect : Bool
deriving DecidableEq, Repr

/-- Lines 203-213: iterate over `enumerate(questions)`; for each
index look up `user_answers.get(i)` and render a row only when a
record exists (`if review:`), deriving correctness by comparing the
stored strings (line 208). -/
def reviewEntries (unescape : String → String) (s : QuizState) : List ReviewEntry :=
  s.questions.enum.filterMap (fun p =>
    (dictGet p.1 s.user_answers).map (fun r =>
      { questionText := unescape p.2.text
        user_choice := r.user_choice
        correct_answer := r.correct_answer
        isCorrect := r.user_choice == r.correct_answer }))

/-- Number of correct submissions in a run: positions where the
submitted choice equals the decoded correct answer of the question at
the same position. -/
def countCorrect (unescape : String → String) (choices : List String)
    (qs : List Question) : Nat :=
  (List.zipWith (fun c q => if c == unescape q.correctAnswer then 1 else 0)
    choices qs).sum

/-- In-bounds invariant: while the quiz is marked started and the
question list is non-empty, `current_question` indexes `questions`
in bounds (line 160 relies on this). -/
def boundsInv (s : QuizState) : Prop :=
  s.quiz_started = true → s.questions ≠ [] → s.current_question < s.questions.length

/-!
## Concrete states used to exercise the theorems
-/

/-- A three-option question. -/
def c1Q : Question := ⟨"Which sport?", "A", ["B", "C"], none⟩

/-- First question of the two-question scenario. -/
def cQ1 : Question := ⟨"q1", "A", ["B", "C"], none⟩

/-- Second question of the two-question scenario. -/
def cQ2 : Question := ⟨"q2", "X", ["Y"], none⟩

/-- The state produced by the first script run: `initialize_session_state`
on an empty store. -/
def initialState : QuizState := toQuizState (initialize_session_state blankSession)

/-- An in-progress one-question session. -/
def c3S : QuizState := ⟨true, [cQ1], 0, 0, []⟩

/-- A finished two-question session in which only question 0 has an
answer record. -/
def c5S : QuizState := ⟨false, [cQ1, cQ2], 1, 2, [(0, ⟨"A", "A"⟩)]⟩

/-- A finished two-question session in which every question has an
answer record. -/
def c5AllS : QuizState := ⟨false, [cQ1, cQ2], 1, 2, [(0, ⟨"A", "A"⟩), (1, ⟨"Y", "X"⟩)]⟩

/-- An in-progress one-question session (bounds-invariant witness). -/
def c9S : QuizState := ⟨true, [cQ1], 0, 0, []⟩

/-- A finished one-question session with a recorded wrong answer. -/
def c10S : QuizState := ⟨false, [cQ1], 1, 1, [(0, ⟨"B", "A"⟩)]⟩

/-!  Permutation facts about the shuffle (moved below the data
definitions). -/

theorem set_append_getD_perm (l : List String) (j : Nat) (a : String)
    (hj : j < l.length) :
    ((l.set j a) ++ [l.getD j ""]).Perm (l ++ [a]) := by
  induction l generalizing j with
  | nil => simp at hj
  | cons x t ih =>
    cases j with
    | zero =>
      simp only [List.set_cons_zero, List.getD_cons_zero, List.cons_append]
      have p1 : (t ++ [x]).Perm (x :: t) := List.perm_append_singleton x t
      have p2 : (a :: x :: t).Perm (x :: a :: t) := List.Perm.swap x a t
      have p3 : (a :: t).Perm (t ++ [a]) := (List.perm_append_singleton a t).symm
      exact ((p1.cons a).trans p2).trans (p3.cons x)
    | succ j =>
      simp only [List.set_cons_succ, List.getD_cons_succ, List.cons_append]
      exact (ih j (by simpa using hj)).cons x

theorem fyAux_perm (n : Nat) :
    ∀ (l : List String) (js : List Nat), l.length = n → (fyAux n l js).Perm l := by
  induction n using Nat.strong_induction_on with
  | _ n ih =>
    match n with
    | 0 => intro l js hl; simp [fyAux]
    | 1 => intro l js hl; simp [fyAux]
    | n+2 =>
      intro l js hl
      have hfront : (l.take (n+1)).length = n + 1 := by
        simp [hl]
      have hlast : l.drop (n+1) = [l.getD (n+1) ""] := by
        have hlt : n + 1 < l.length := by omega
        rw [List.getD_eq_getElem l "" hlt]
        rw [List.drop_eq_getElem_cons hlt]
        have : l.drop (n+2) = [] := List.drop_eq_nil_of_le (by omega)
        rw [this]
      have hsplit : l = l.take (n+1) ++ [l.getD (n+1) ""] := by
        conv_lhs => rw [← List.take_append_drop (n+1) l]
        rw [hlast]
      rw [fyAux]
      by_cases hj : js.headD 0 % (n+2) = n+1
      · rw [if_pos hj]
        have h1 := ih (n+1) (by omega) (l.take (n+1)) js.tail hfront
        conv_rhs => rw [hsplit]
        exact h1.append_right _
      · rw [if_neg hj]
        have hjlt : js.headD 0 % (n+2) < n + 1 := by
          have := Nat.mod_lt (js.headD 0) (show 0 < n+2 by omega)
          omega
        have hsetlen : ((l.take (n+1)).set (js.headD 0 % (n+2)) (l.getD (n+1) "")).length
            = n + 1 := by simp [hfront]
        have h1 := ih (n+1) (by omega) _ js.tail hsetlen
        have h2 := set_append_getD_perm (l.take (n+1)) (js.headD 0 % (n+2))
          (l.getD (n+1) "") (by omega)
        conv_rhs => rw [hsplit]
        exact (h1.append_right _).trans h2

theorem pyShuffle_perm (l : List String) (js : List Nat) :
    (pyShuffle l js).Perm l :=
  fyAux_perm l.length l js rfl

/-!
## Shared helper lemmas
-/

theorem correct_mem_displayOptions (u : String → String) (q : Question)
    (js : List Nat) : u q.correctAnswer ∈ displayOptions u q js := by
  have hp := (pyShuffle_perm (q.incorrectAnswers ++ [q.correctAnswer]) js).map u
  have hm : u q.correctAnswer ∈ List.map u (q.incorrectAnswers ++ [q.correctAnswer]) := by
    simp
  exact hp.mem_iff.mpr hm

theorem dictInsert_ne_nil (k : Nat) (v : AnswerRecord)
    (d : List (Nat × AnswerRecord)) : dictInsert k v d ≠ [] := by
  unfold dictInsert
  split
  · rename_i h
    cases d with
    | nil => simp at h
    | cons p t => simp
  · simp

theorem dictGet_dictInsert (k : Nat) (v : AnswerRecord)
    (d : List (Nat × AnswerRecord)) : dictGet k (dictInsert k v d) = some v := by
  unfold dictGet dictInsert
  by_cases h : d.any (fun p => p.1 == k)
  · rw [if_pos h]
    induction d with
    | nil => simp at h
    | cons p t ih =>
      by_cases hp : p.1 == k
      · simp [List.find?, hp]
      · have hpf : (p.1 == k) = false := by simpa using hp
        have ht : t.any (fun p => p.1 == k) := by
          simp only [List.any_cons, hpf, Bool.false_or] at h
          exact h
        simpa [List.find?, hpf] using ih ht
  · rw [if_neg h]
    have hnone : d.find? (fun p => p.1 == k) = none := by
      rw [List.find?_eq_none]
      intro p hp
      intro hcontra
      exact h (List.any_eq_true.mpr ⟨p, hp, hcontra⟩)
    rw [List.find?_append, hnone]
    simp [List.find?]

/-- One Submit Answer click, component by component. -/
theorem submitAnswer_spec (u : String → String) (c : String) (s : QuizState) :
    (submitAnswer u c s).1
      = ⟨c, u (s.questions.getD s.current_question default).correctAnswer⟩ ∧
    (submitAnswer u c s).2.questions = s.questions ∧
    (submitAnswer u c s).2.current_question = s.current_question + 1 ∧
    (submitAnswer u c s).2.score
      = (if c == u (s.questions.getD s.current_question default).correctAnswer
          then s.score + 1 else s.score) ∧
    (submitAnswer u c s).2.quiz_started
      = (if s.questions.length ≤ s.current_question + 1 then false
          else s.quiz_started) ∧
    (submitAnswer u c s).2.user_answers
      = dictInsert s.current_question
          ⟨c, u (s.questions.getD s.current_question default).correctAnswer⟩
          s.user_answers := by
  refine ⟨rfl, rfl, rfl, rfl, rfl, rfl⟩

theorem runSubmits_nil (u : String → String) (s : QuizState) :
    runSubmits u [] s = s := rfl

theorem runSubmits_cons (u : String → String) (c : String) (cs : List String)
    (s : QuizState) :
    runSubmits u (c :: cs) s = runSubmits u cs (submitAnswer u c s).2 := rfl

theorem countCorrect_cons (u : String → String) (c : String) (cs : List String)
    (q : Question) (qs : List Question) :
    countCorrect u (c :: cs) (q :: qs)
      = (if c == u q.correctAnswer then 1 else 0) + countCorrect u cs qs := by
  simp [countCorrect]

/-- While strictly fewer Submit clicks than remaining questions have
happened, the quiz stays marked started and `current_question` has
advanced once per click. -/
theorem runSubmits_under (u : String → String) (cs : List String) :
    ∀ s : QuizState, s.quiz_started = true →
      s.current_question + cs.length < s.questions.length →
      (runSubmits u cs s).quiz_started = true ∧
      (runSubmits u cs s).questions = s.questions ∧
      (runSubmits u cs s).current_question = s.current_question + cs.length := by
  induction cs with
  | nil =>
    intro s h1 _
    exact ⟨h1, rfl, rfl⟩
  | cons c cs ih =>
    intro s h1 h2
    rw [runSubmits_cons]
    have hlen : ¬ (s.questions.length ≤ s.current_question + 1) := by
      simp only [List.length_cons] at h2; omega
    have hs : (submitAnswer u c s).2.quiz_started = true := by
      rw [(submitAnswer_spec u c s).2.2.2.2.1, if_neg hlen, h1]
    have h2' : (submitAnswer u c s).2.current_question + cs.length
        < (submitAnswer u c s).2.questions.length := by
      rw [(submitAnswer_spec u c s).2.2.1, (submitAnswer_spec u c s).2.1]
      simp only [List.length_cons] at h2; omega
    obtain ⟨ha, hb, hc⟩ := ih _ hs h2'
    refine ⟨ha, by rw [hb, (submitAnswer_spec u c s).2.1], ?_⟩
    rw [hc, (submitAnswer_spec u c s).2.2.1]
    simp only [List.length_cons]
    omega

/-- Running exactly the remaining number of Submit clicks accumulates
the score of the correct ones, clears `quiz_started` (line 189) and
leaves a non-empty `user_answers`. -/
theorem runSubmits_exact (u : String → String) (cs : List String) :
    ∀ s : QuizState, s.quiz_started = true →
      s.current_question + cs.length = s.questions.length →
      cs ≠ [] →
      (runSubmits u cs s).score
        = s.score + countCorrect u cs (s.questions.drop s.current_question) ∧
      (runSubmits u cs s).quiz_started = false ∧
      (runSubmits u cs s).current_question = s.questions.length ∧
      (runSubmits u cs s).user_answers ≠ [] := by
  induction cs with
  | nil =>
    intro s _ _ hne
    exact absurd rfl hne
  | cons c cs ih =>
    intro s h1 h2 _
    have hcur : s.current_question < s.questions.length := by
      simp only [List.length_cons] at h2; omega
    have hdrop : s.questions.drop s.current_question
        = s.questions.getD s.current_question default
            :: s.questions.drop (s.current_question + 1) := by
      rw [List.getD_eq_getElem _ _ hcur]
      exact List.drop_eq_getElem_cons hcur
    rw [runSubmits_cons, hdrop, countCorrect_cons]
    cases cs with
    | nil =>
      have hstop : s.questions.length ≤ s.current_question + 1 := by
        simp only [List.length_cons, List.length_nil] at h2; omega
      rw [runSubmits_nil]
      refine ⟨?_, ?_, ?_, ?_⟩
      · rw [(submitAnswer_spec u c s).2.2.2.1]
        have hz : countCorrect u [] (List.drop (s.current_question + 1) s.questions)
            = 0 := by simp [countCorrect]
        rw [hz]
        by_cases hcond :
            (c == u (s.questions.getD s.current_question default).correctAnswer) = true
        · rw [if_pos hcond, if_pos hcond]
        · rw [if_neg hcond, if_neg hcond]; omega
      · rw [(submitAnswer_spec u c s).2.2.2.2.1, if_pos hstop]
      · rw [(submitAnswer_spec u c s).2.2.1]
        simp only [List.length_cons, List.length_nil] at h2; omega
      · rw [(submitAnswer_spec u c s).2.2.2.2.2]
        exact dictInsert_ne_nil _ _ _
    | cons c2 cs2 =>
      have hlen : ¬ (s.questions.length ≤ s.current_question + 1) := by
        simp only [List.length_cons] at h2; omega
      have hs : (submitAnswer u c s).2.quiz_started = true := by
        rw [(submitAnswer_spec u c s).2.2.2.2.1, if_neg hlen, h1]
      have h2' : (submitAnswer u c s).2.current_question + (c2 :: cs2).length
          = (submitAnswer u c s).2.questions.length := by
        rw [(submitAnswer_spec u c s).2.2.1, (submitAnswer_spec u c s).2.1]
        simp only [List.length_cons] at h2 ⊢; omega
      obtain ⟨ha, hb, hc, hd⟩ := ih _ hs h2' (by simp)
      rw [(submitAnswer_spec u c s).2.1, (submitAnswer_spec u c s).2.2.1] at ha
      refine ⟨?_, hb, hc, hd⟩
      rw [ha, (submitAnswer_spec u c s).2.2.2.1]
      by_cases hcond :
          (c == u (s.questions.getD s.current_question default).correctAnswer) = true
      · rw [if_pos hcond, if_pos hcond]; omega
      · rw [if_neg hcond, if_neg hcond]; omega

/-!
## Claims
-/

/-- C1: `display_question` re-runs `random.shuffle` on every render
(lines 63-65 execute on each Streamlit rerun), so rendering the same
Question twice with successive RNG draws yields different option
orders — the options order is NOT produced once and fixed for the
question's lifetime.  Evaluation of the render code at the failing
input: the same question rendered with draw streams `[0, 0]` and
`[1, 0]` shows two different orders. -/
theorem c1_rerender_reshuffles :
    displayOptions id c1Q [0, 0] = ["C", "A", "B"] ∧
    displayOptions id c1Q [1, 0] = ["A", "B", "C"] ∧
    displayOptions id c1Q [0, 0] ≠ displayOptions id c1Q [1, 0] := by
  decide

/-- C4: for every question and every RNG draw stream, the rendered
option list is a permutation of the decoded incorrect answers
together with the decoded correct answer; hence the correct answer
occurs among the options and the option count is
`len(incorrectAnswers) + 1`. -/
theorem c4_options_permutation (u : String → String) (q : Question)
    (js : List Nat) :
    (displayOptions u q js).Perm ((q.incorrectAnswers ++ [q.correctAnswer]).map u) ∧
    u q.correctAnswer ∈ displayOptions u q js ∧
    (displayOptions u q js).length = q.incorrectAnswers.length + 1 := by
  have hp := (pyShuffle_perm (q.incorrectAnswers ++ [q.correctAnswer]) js).map u
  refine ⟨hp, correct_mem_displayOptions u q js, ?_⟩
  have h := hp.length_eq
  simp only [List.length_map, List.length_append, List.length_cons,
    List.length_nil] at h
  show (List.map u (pyShuffle (q.incorrectAnswers ++ [q.correctAnswer]) js)).length = _
  simp only [List.length_map]
  omega

/-- C8: the Play Again handler deletes every session key and reruns;
`initialize_session_state` then rebuilds the store with all defaults,
so from any state the reset yields quiz not started, empty questions,
score 0, index 0 and an empty answers map. -/
theorem c8_play_again_resets (s : RawSessionState) :
    playAgain s = { quiz_started := some false, questions := some ([] : List Question),
                    score := some 0, current_question := some 0,
                    user_answers := some [] } ∧
    toQuizState (playAgain s) = ⟨false, [], 0, 0, []⟩ :=
  ⟨rfl, rfl⟩

/-- C6 counterexample: a fetch that succeeds with zero questions is
NOT treated as a distinguished `FetchError::Empty`: the code's fetch
returns the same caller-visible value (`[]`) as a transport failure
and displays no error message at all, whereas the spec-modelled fetch
maps the two outcomes to distinct errors. -/
theorem c6_empty_success_not_error :
    (fetch_quiz_questions (ApiResponse.ok [])).1
      = (fetch_quiz_questions (ApiResponse.requestException "api down")).1 ∧
    (fetch_quiz_questions (ApiResponse.ok [])).2 = none ∧
    fetchSpec (ApiResponse.ok []) = Except.error FetchError.Empty ∧
    fetchSpec (ApiResponse.requestException "api down")
      = Except.error (FetchError.Transport "api down") :=
  ⟨rfl, rfl, rfl, rfl⟩

/-- C6 amended: a fetch returning zero questions yields the empty
list — indistinguishable from a failed fetch and with no dedicated
error — but the Start Quiz handler indeed never transitions the
session to started on an empty list: `quiz_started` is set only when
the stored list is non-empty, and on an empty list the handler leaves
every field except `questions` unchanged. -/
theorem c6_no_start_on_empty (s : QuizState) (l : List Question) :
    (startQuiz s l).quiz_started = (if l.isEmpty then s.quiz_started else true) ∧
    (startQuiz s l).questions = l ∧
    startQuiz s [] = { s with questions := ([] : List Question) } ∧
    fetch_quiz_questions (ApiResponse.ok []) = ([], none) := by
  refine ⟨?_, ?_, rfl, rfl⟩
  · unfold startQuiz
    by_cases hl : l.isEmpty = true
    · rw [if_pos hl, if_pos hl]
    · rw [if_neg hl, if_neg hl]
  · unfold startQuiz
    by_cases hl : l.isEmpty = true
    · rw [if_pos hl]
    · rw [if_neg hl]

/-- C7 counterexample: a transport failure and a decode failure are
NOT distinguishable to the caller: `fetch_quiz_questions` returns the
identical empty list in both cases (the difference exists only in
the `st.error` message), whereas the spec-modelled fetch returns
distinct `Transport`/`Decode` errors. -/
theorem c7_caller_sees_same_value :
    (fetch_quiz_questions (ApiResponse.requestException "timeout")).1
      = (fetch_quiz_questions ApiResponse.badJson).1 ∧
    fetchSpec (ApiResponse.requestException "timeout") ≠ fetchSpec ApiResponse.badJson := by
  refine ⟨rfl, ?_⟩
  intro h
  simp [fetchSpec] at h

/-- C7 amended: a transport failure displays
`"Error fetching questions from the API: <e>"` and a decode failure
displays a distinct fixed decode message, and both return the empty
list, in a single attempt with no retry; the two kinds are
distinguished only in the displayed message, not in the value the
caller receives. -/
theorem c7_distinct_messages (m : String) :
    fetch_quiz_questions (ApiResponse.requestException m)
      = ([], some ("Error fetching questions from the API: " ++ m)) ∧
    fetch_quiz_questions ApiResponse.badJson
      = ([], some "Failed to decode the API response. The API might be temporarily down.") ∧
    (fetch_quiz_questions (ApiResponse.requestException m)).1
      = (fetch_quiz_questions ApiResponse.badJson).1 ∧
    (fetch_quiz_questions (ApiResponse.requestException "timeout")).2
      ≠ (fetch_quiz_questions ApiResponse.badJson).2 := by
  refine ⟨rfl, rfl, rfl, by decide⟩

/-- C2: starting a session on a non-empty question list and clicking
Submit Answer once per question, the final score equals the number of
submissions whose choice matches that question's decoded correct
answer, the quiz is not finished after any proper prefix of the
clicks, and it is finished (quiz no longer started, answers present,
so the results block renders) exactly after the last click. -/
theorem c2_run_scores_and_finishes (u : String → String) (s0 : QuizState)
    (qs : List Question) (choices : List String) (k : Nat)
    (hne : qs ≠ []) (hlen : choices.length = qs.length)
    (hk : k < choices.length) :
    (runSubmits u choices (startQuiz s0 qs)).score = countCorrect u choices qs ∧
    isFinished (runSubmits u (choices.take k) (startQuiz s0 qs)) = false ∧
    (runSubmits u choices (startQuiz s0 qs)).quiz_started = false ∧
    isFinished (runSubmits u choices (startQuiz s0 qs)) = true := by
  have hni : qs.isEmpty = false := List.isEmpty_eq_false.mpr hne
  have hS : startQuiz s0 qs = ⟨true, qs, 0, 0, []⟩ := by
    unfold startQuiz
    rw [hni]
    rfl
  have hq0 : 0 < qs.length := List.length_pos.mpr hne
  have hc0 : 0 < choices.length := by omega
  rw [hS]
  obtain ⟨hsc, hfin, _, hans⟩ :=
    runSubmits_exact u choices ⟨true, qs, 0, 0, []⟩ rfl (by simp [hlen]) (List.length_pos.mp hc0)
  obtain ⟨hp1, _, _⟩ :=
    runSubmits_under u (choices.take k) ⟨true, qs, 0, 0, []⟩ rfl
      (by simp only [List.length_take]; omega)
  simp only [List.drop_zero, Nat.zero_add] at hsc
  refine ⟨hsc, ?_, hfin, ?_⟩
  · unfold isFinished
    rw [hp1]
    rfl
  · unfold isFinished
    rw [hfin, List.isEmpty_eq_false.mpr hans]
    rfl

/-- C2 witness: the two-question scenario (submit the correct "A",
then the wrong "Y") scores 1 and finishes exactly at the end. -/
theorem c2_run_witness :
    (runSubmits id ["A", "Y"] (startQuiz initialState [cQ1, cQ2])).score
      = countCorrect id ["A", "Y"] [cQ1, cQ2] ∧
    isFinished (runSubmits id (["A", "Y"].take 1) (startQuiz initialState [cQ1, cQ2]))
      = false ∧
    (runSubmits id ["A", "Y"] (startQuiz initialState [cQ1, cQ2])).quiz_started
      = false ∧
    isFinished (runSubmits id ["A", "Y"] (startQuiz initialState [cQ1, cQ2])) = true :=
  c2_run_scores_and_finishes id initialState [cQ1, cQ2] ["A", "Y"] 1
    (by decide) (by decide) (by decide)

/-- C3: one Submit Answer click in an in-progress session stores
under the current index a record holding the submitted choice and the
current question's decoded correct answer, whose derived correctness
is the string comparison of the two; the score grows by 1 exactly
when the record is correct; the index advances by 1; the returned
record is the stored one (about the question just answered); and a
choice that is not among the rendered options is still recorded, as
incorrect, with no rejection. -/
theorem c3_submit_effects (u : String → String) (c : String) (s : QuizState)
    (_h1 : s.quiz_started = true) (_h2 : s.current_question < s.questions.length) :
    dictGet s.current_question (submitAnswer u c s).2.user_answers
      = some (submitAnswer u c s).1 ∧
    (submitAnswer u c s).1.user_choice = c ∧
    (submitAnswer u c s).1.correct_answer
      = u (s.questions.getD s.current_question default).correctAnswer ∧
    (submitAnswer u c s).1.isCorrect
      = (c == u (s.questions.getD s.current_question default).correctAnswer) ∧
    (submitAnswer u c s).2.score
      = (if (submitAnswer u c s).1.isCorrect then s.score + 1 else s.score) ∧
    (submitAnswer u c s).2.current_question = s.current_question + 1 ∧
    ∀ js, c ∉ displayOptions u (s.questions.getD s.current_question default) js →
      (submitAnswer u c s).1.isCorrect = false := by
  refine ⟨?_, rfl, rfl, rfl, rfl, rfl, ?_⟩
  · rw [(submitAnswer_spec u c s).2.2.2.2.2, (submitAnswer_spec u c s).1]
    exact dictGet_dictInsert _ _ _
  · intro js hjs
    by_cases hc : c = u (s.questions.getD s.current_question default).correctAnswer
    · rw [hc] at hjs
      exact absurd (correct_mem_displayOptions u _ js) hjs
    · show (c == u (s.questions.getD s.current_question default).correctAnswer) = false
      exact beq_eq_false_iff_ne.mpr hc

/-- C3 witness: submitting the off-options choice "Z" in a
one-question session stores it at index 0 as an incorrect answer. -/
theorem c3_submit_witness :
    dictGet 0 (submitAnswer id "Z" c3S).2.user_answers
      = some (submitAnswer id "Z" c3S).1 ∧
    (submitAnswer id "Z" c3S).1.isCorrect = false := by
  have h := c3_submit_effects id "Z" c3S rfl (by decide)
  exact ⟨h.1, h.2.2.2.2.2.2 [0, 0] (by decide)⟩

/-- C5 counterexample: in a finished session where question index 1
has no answer record, the review loop (guarded by `if review:`)
omits that question instead of reporting it with an absent choice:
the review has 1 entry for 2 questions. -/
theorem c5_skipped_index_omitted :
    isFinished c5S = true ∧
    c5S.questions.length = 2 ∧
    dictGet 1 c5S.user_answers = none ∧
    (reviewEntries id c5S).length = 1 := by
  decide

/-- C5 amended: for every session, the review lists, in question
order, exactly one entry per question index that has an answer record
(its length is the number of answered indices among the enumerated
questions); an index with no record is omitted — whenever such an
index exists the review is strictly shorter than the question list —
and the review length equals the question count when every index has
a record (as in the normal flow). -/
theorem c5_review_only_answered (u : String → String) (s : QuizState) :
    (reviewEntries u s).length
      = (s.questions.enum.filter
          (fun p => (dictGet p.1 s.user_answers).isSome)).length ∧
    ((∀ i, i < s.questions.length → (dictGet i s.user_answers).isSome = true) →
      (reviewEntries u s).length = s.questions.length) ∧
    (∀ i, i < s.questions.length → dictGet i s.user_answers = none →
      (reviewEntries u s).length < s.questions.length) := by
  have hgen : (reviewEntries u s).length
      = (s.questions.enum.filter
          (fun p => (dictGet p.1 s.user_answers).isSome)).length := by
    unfold reviewEntries
    generalize s.questions.enum = l
    induction l with
    | nil => rfl
    | cons p t ih =>
      cases hx : dictGet p.1 s.user_answers with
      | none => simp [List.filterMap_cons, List.filter_cons, hx, ih]
      | some r => simp [List.filterMap_cons, List.filter_cons, hx, ih]
  refine ⟨hgen, ?_, ?_⟩
  · intro hall
    rw [hgen]
    have hfe : s.questions.enum.filter (fun p => (dictGet p.1 s.user_answers).isSome)
        = s.questions.enum := by
      apply List.filter_eq_self.mpr
      intro p hp
      exact hall p.1 (List.fst_lt_of_mem_enum hp)
    rw [hfe, List.enum_length]
  · intro i hi hnone
    rw [hgen]
    have hmem : (i, s.questions.get ⟨i, hi⟩) ∈ s.questions.enum := by
      rw [List.mem_enum_iff_getElem?]
      simp [List.getElem?_eq_getElem hi]
    have hlt : (s.questions.enum.filter
        (fun p => (dictGet p.1 s.user_answers).isSome)).length
        < s.questions.enum.length := by
      rw [List.length_filter_lt_length_iff_exists]
      refine ⟨(i, s.questions.get ⟨i, hi⟩), hmem, ?_⟩
      simp [hnone]
    rw [List.enum_length] at hlt
    exact hlt

/-- C5 witness: the general count holds at the session with an
unanswered index (where the review is also strictly shorter than the
question list), and with both questions answered the review has one
entry per question. -/
theorem c5_review_witness :
    (reviewEntries id c5S).length
      = (c5S.questions.enum.filter
          (fun p => (dictGet p.1 c5S.user_answers).isSome)).length ∧
    (reviewEntries id c5S).length < c5S.questions.length ∧
    (reviewEntries id c5AllS).length = c5AllS.questions.length := by
  have h1 := c5_review_only_answered id c5S
  have h2 := c5_review_only_answered id c5AllS
  exact ⟨h1.1, h1.2.2 1 (by decide) (by decide), h2.2.1 (by decide)⟩

/-- C9: the in-bounds invariant — started and non-empty questions
imply `current_question < len(questions)` — is preserved by the
Start Quiz handler, by the Submit Answer handler (which clears
`quiz_started` exactly when the incremented index reaches the end)
and by the Play Again reset, and under it the read of
`questions[current_question]` on line 160 is in bounds. -/
theorem c9_index_in_bounds (u : String → String) (c : String) (s : QuizState)
    (r : RawSessionState) (l : List Question)
    (hInv : boundsInv s) (h1 : s.quiz_started = true) (h2 : s.questions ≠ []) :
    boundsInv (startQuiz s l) ∧
    boundsInv (submitAnswer u c s).2 ∧
    boundsInv (toQuizState (playAgain r)) ∧
    (s.questions.get? s.current_question).isSome = true := by
  refine ⟨?_, ?_, ?_, ?_⟩
  · intro hs hq
    unfold startQuiz at hs hq ⊢
    by_cases hl : l.isEmpty = true
    · rw [if_pos hl] at hq
      exact absurd (List.isEmpty_iff.mp hl) hq
    · rw [if_neg hl] at hs hq ⊢
      have hlne : l ≠ [] := fun h => hl (by rw [h]; rfl)
      show (0 : Nat) < l.length
      exact List.length_pos.mpr hlne
  · intro hs _
    rw [(submitAnswer_spec u c s).2.2.2.2.1] at hs
    by_cases hle : s.questions.length ≤ s.current_question + 1
    · rw [if_pos hle] at hs
      exact absurd hs (by simp)
    · rw [(submitAnswer_spec u c s).2.2.1, (submitAnswer_spec u c s).2.1]
      omega
  · intro hs _
    simp [toQuizState, playAgain, initialize_session_state, blankSession] at hs
  · have hlt := hInv h1 h2
    simp [List.get?_eq_getElem?, hlt]

/-- C9 witness: in a started one-question session the current
question read is in bounds. -/
theorem c9_bounds_witness : (c9S.questions.get? c9S.current_question).isSome = true :=
  (c9_index_in_bounds id "A" c9S blankSession [cQ1]
    (by intro p1 p2; decide) rfl (by decide)).2.2.2

/-- C10: when the Start Quiz handler's fetch fails (or returns no
questions) the handler stores the empty list in `questions` and
leaves the started flag, score, current index and answers map
untouched; for a previously finished session the results block then
reports the surviving prior score over a total of zero questions. -/
theorem c10_failed_start_keeps_state (s : QuizState) (m : String)
    (hs : s.quiz_started = false) (ha : s.user_answers ≠ []) :
    (fetch_quiz_questions (ApiResponse.requestException m)).1 = [] ∧
    startQuiz s [] = { s with questions := ([] : List Question) } ∧
    (startQuiz s []).quiz_started = s.quiz_started ∧
    (startQuiz s []).score = s.score ∧
    (startQuiz s []).current_question = s.current_question ∧
    (startQuiz s []).user_answers = s.user_answers ∧
    resultsHeader (startQuiz s []) = some (s.score, 0) := by
  refine ⟨rfl, rfl, rfl, rfl, rfl, rfl, ?_⟩
  unfold resultsHeader
  have hfin : isFinished (startQuiz s []) = true := by
    unfold isFinished
    show (!s.quiz_started && !s.user_answers.isEmpty) = true
    rw [hs, List.isEmpty_eq_false.mpr ha]
    rfl
  rw [if_pos hfin]
  rfl

/-- C10 witness: a finished one-question session with score 1, after
a failed fetch, keeps its state and shows 1 / 0. -/
theorem c10_failed_start_witness :
    startQuiz c10S [] = { c10S with questions := ([] : List Question) } ∧
    resultsHeader (startQuiz c10S []) = some (c10S.score, 0) := by
  have h := c10_failed_start_keeps_state c10S "down" rfl (by decide)
  exact ⟨h.2.1, h.2.2.2.2.2.2⟩

end QuizApp
